import Mathlib

/-!
Verification development for the MEGA_Manager repository
(`megaManager.py` together with `libs/lib.py`).

The Python code is shallowly embedded: every stateful method becomes a pure
Lean function on an explicit state record, external collaborators (filesystem
probes, the media transcoder, the remote-storage tool) become oracle functions
packaged in a "world" record, and side effects (transcoder invocations, file
removals, persistence flushes, remote-delete calls) are recorded in explicit
trace fields of the state.  `megaManager.py` contains unresolved git merge
markers; the claims under scrutiny reference the HEAD side of each conflict,
so the HEAD-side bodies are the ones embedded here.
-/

/-! ### Python string primitives used by the source -/

/-- Python substring test `needle in hay`, on character lists.  The empty
needle is contained in every string. -/
def subStrList (needle : List Char) : List Char → Bool
  | [] => needle.isEmpty
  | c :: t => needle.isPrefixOf (c :: t) || subStrList needle t

/-- Python substring test `needle in hay` on strings. -/
def pyIn (needle hay : String) : Bool :=
  subStrList needle.data hay.data

/-- Fuel-driven worker for `pySub`: replaces every non-overlapping occurrence
of `pat` (leftmost first) by `rep`, exactly as Python `re.sub` does on a
literal pattern.  `fuel` bounds the number of characters consumed; callers
pass the length of the subject string. -/
def subAux (pat rep : List Char) : Nat → List Char → List Char
  | 0, s => s
  | _ + 1, [] => []
  | fuel + 1, c :: rest =>
    if !pat.isEmpty && pat.isPrefixOf (c :: rest) then
      rep ++ subAux pat rep fuel (List.drop (pat.length - 1) rest)
    else
      c :: subAux pat rep fuel rest

/-- Python `re.sub(pat, rep, s)` for the literal patterns the source uses
(a backslash, the remote root, the marker `_NEW`). -/
def pySub (pat rep s : String) : String :=
  String.mk (subAux pat.data rep.data s.data.length s.data)

/-- Python `s.rsplit(".", 1)[0]`: everything before the last dot, or the whole
string when there is no dot. -/
def rsplitDotHead (s : String) : String :=
  match (s.data.reverse).dropWhile (fun c => c != '.') with
  | [] => s
  | _ :: rest => String.mk rest.reverse

/-! ### Persistent List Store (`libs/lib.py`)

`dump_list_into_file` serializes a path list with `numpy.savez_compressed`;
`load_file_as_list` reads it back with `numpy.load` and returns `[]` when the
file is absent (the `path.isfile` guard) or when reading raises (the
`except`/`finally` pair).  The numpy binary round trip for a list of strings
is an external collaborator and is modelled as faithful storage: a file on
disk is either a good snapshot of a list, or unreadable/corrupt. -/

/-- Contents a persisted-set file can hold: a good compressed snapshot of a
path list, or bytes that `numpy.load` rejects. -/
inductive StoredFile
  | npz (items : List String)
  | corrupt
  deriving DecidableEq, Repr

/-- The filesystem as seen by the Persistent List Store: `none` means the file
is absent. -/
def FileSys : Type := String → Option StoredFile

/-- Embedding of `Lib.dump_list_into_file` (lib.py): fully overwrites
`filePath` with a snapshot of `itemList` (the successful `savez_compressed`
path; a write failure is caught and logged in the source and leaves the
in-memory list authoritative). -/
def dump_list_into_file (itemList : List String) (filePath : String)
    (fs : FileSys) : FileSys :=
  fun p => if p = filePath then some (StoredFile.npz itemList) else fs p

/-- Embedding of `Lib.load_file_as_list` (lib.py): absent file gives `[]`
(the `path.isfile` branch), a corrupt file gives `[]` (the exception is caught,
`items` is still `[]` when the `finally: return items` runs), and a good
snapshot gives its stored list.  The function is total: no outcome of the
filesystem makes it propagate an error. -/
def load_file_as_list (filePath : String) (fs : FileSys) : List String :=
  match fs filePath with
  | none => []
  | some StoredFile.corrupt => []
  | some (StoredFile.npz items) => items

/-! ### Remote listings and the Compression Pipeline (`megaManager.py`)

`_find_image_files_to_compress` and `_find_video_files_to_compress` walk a
recursive remote listing.  The three megals line extractors
(`get_file_type_from_megals_line_data`, `get_file_extension_from_megals_line_data`,
`get_file_path_from_megals_line_data`, from `MegaTools_Lib` which is not under
`src/`) are modelled from the spec: a listing line is a typed
`RemoteFileEntry` carrying the extracted type tag, extension and remote path.
A failed or empty listing is the empty list (the source's `if lines:` guard
then skips the whole scan). -/

/-- Modelled from the spec: `RemoteFileEntry` — the fields the three megals
line extractors of the (missing) MegaTools gateway produce for one listing
line.  A type tag of `"0"` marks a plain file. -/
structure RemoteEntry where
  remote_type : String
  remote_fileExt : String
  remote_filePath : String
  deriving DecidableEq, Repr

/-- `COMPRESSION_IMAGE_EXTENSIONS` from megaManager.py. -/
def COMPRESSION_IMAGE_EXTENSIONS : List String := [".jpg", ".jpeg", ".png"]

/-- `COMPRESSION_VIDEO_EXTENSIONS` from megaManager.py. -/
def COMPRESSION_VIDEO_EXTENSIONS : List String := [".avi", ".mp4", ".wmv"]

/-- `COMPRESSED_IMAGES_FILE` (the `WORKING_DIR` prefix is elided). -/
def COMPRESSED_IMAGES_FILE : String := "data/compressed_images.npz"

/-- `UNABLE_TO_COMPRESS_IMAGES_FILE` (the `WORKING_DIR` prefix is elided). -/
def UNABLE_TO_COMPRESS_IMAGES_FILE : String := "data/unable_to_compress_images.npz"

/-- `COMPRESSED_VIDEOS_FILE` (the `WORKING_DIR` prefix is elided). -/
def COMPRESSED_VIDEOS_FILE : String := "data/compressed_videos.npz"

/-- `UNABLE_TO_COMPRESS_VIDEOS_FILE` (the `WORKING_DIR` prefix is elided). -/
def UNABLE_TO_COMPRESS_VIDEOS_FILE : String := "data/unable_to_compress_videos.npz"

/-- `REMOVED_REMOTE_FILES` (the `WORKING_DIR` prefix is elided). -/
def REMOVED_REMOTE_FILES : String := "data/removed_remote_files.npz"

/-- External collaborators of the image pipeline: the local filesystem probe
`path.isfile`, the CompressImages transcoder result, and the
`path.exists` probe for the backup sidecar after the transcoder ran. -/
structure ImageWorld where
  isfile : String → Bool
  compress_image_file : String → Bool
  sidecar_exists : String → Bool

/-- Mutable state touched by `_find_image_files_to_compress`:
the two in-memory processed sets, the stray `self.compressedFiles` attribute
the success branch writes to, plus traces of `remove()` calls, transcoder
invocations and `dump_list_into_file` flushes (file path and flushed
contents, in order). -/
structure ImageState where
  compressedImageFiles : List String
  unableToCompressImageFiles : List String
  compressedFiles : List String
  removedFiles : List String
  transcoderCalls : List String
  dumps : List (String × List String)
  deriving DecidableEq, Repr

/-- The local path the pipelines compute for a listing entry: the slash
normalized local root followed by the entry's remote path with every
occurrence of the remote root substituted away
(`local_filePath = localRoot_adj + sub(remoteRoot, '', remote_filePath)`). -/
def localFilePathOf (localRoot_adj remoteRoot : String) (line : RemoteEntry) :
    String :=
  localRoot_adj ++ pySub remoteRoot "" line.remote_filePath

/-- Backup sidecar path the image transcoder leaves on success:
`local_filePath + '.compressimages-backup'`. -/
def compressBackupOf (local_filePath : String) : String :=
  local_filePath ++ ".compressimages-backup"

/-- Body of the HEAD-side `for line in lines:` loop of
`_find_image_files_to_compress` (megaManager.py lines 712-771), for a single
listing entry.  `localRoot_adj` is the slash-normalized local root.  Note the
success branch sets the stray attribute `self.compressedFiles` to the
singleton of the path and flushes the untouched `self.__compressedImageFiles`
list, exactly as the source does. -/
def process_image_line (w : ImageWorld) (localRoot_adj remoteRoot : String)
    (st : ImageState) (line : RemoteEntry) : ImageState :=
  if line.remote_type == "0"
      && COMPRESSION_IMAGE_EXTENSIONS.contains line.remote_fileExt
      && w.isfile (localFilePathOf localRoot_adj remoteRoot line)
      && !st.compressedImageFiles.contains (localFilePathOf localRoot_adj remoteRoot line)
      && !st.unableToCompressImageFiles.contains (localFilePathOf localRoot_adj remoteRoot line) then
    if w.compress_image_file (localFilePathOf localRoot_adj remoteRoot line) then
      if w.sidecar_exists (compressBackupOf (localFilePathOf localRoot_adj remoteRoot line)) then
        { st with
            removedFiles := st.removedFiles
              ++ [compressBackupOf (localFilePathOf localRoot_adj remoteRoot line)]
            compressedFiles := [localFilePathOf localRoot_adj remoteRoot line]
            transcoderCalls := st.transcoderCalls
              ++ [localFilePathOf localRoot_adj remoteRoot line]
            dumps := st.dumps
              ++ [(COMPRESSED_IMAGES_FILE, st.compressedImageFiles)] }
      else
        { st with
            unableToCompressImageFiles := st.unableToCompressImageFiles
              ++ [localFilePathOf localRoot_adj remoteRoot line]
            transcoderCalls := st.transcoderCalls
              ++ [localFilePathOf localRoot_adj remoteRoot line]
            dumps := st.dumps
              ++ [(UNABLE_TO_COMPRESS_IMAGES_FILE,
                    st.unableToCompressImageFiles
                      ++ [localFilePathOf localRoot_adj remoteRoot line])] }
    else
      { st with
          unableToCompressImageFiles := st.unableToCompressImageFiles
            ++ [localFilePathOf localRoot_adj remoteRoot line]
          transcoderCalls := st.transcoderCalls
            ++ [localFilePathOf localRoot_adj remoteRoot line]
          dumps := st.dumps
            ++ [(UNABLE_TO_COMPRESS_IMAGES_FILE,
                  st.unableToCompressImageFiles
                    ++ [localFilePathOf localRoot_adj remoteRoot line])] }
  else st

/-- `_find_image_files_to_compress` (HEAD side): normalize the local root and
fold the loop body over the listing. -/
def find_image_files_to_compress (w : ImageWorld) (localRoot remoteRoot : String)
    (lines : List RemoteEntry) (st : ImageState) : ImageState :=
  lines.foldl (process_image_line w (pySub "\\" "/" localRoot) remoteRoot) st

/-- External collaborators of the video pipeline: the `path.isfile` probe for
the original, the `path.exists` probe for the `_NEW` target before and after
the transcode, and the FFMPEG transcoder result for (source, target). -/
structure VideoWorld where
  isfile : String → Bool
  exists_new_before : String → Bool
  compress_video_file : String → String → Bool
  exists_new_after : String → Bool

/-- Mutable state touched by `_find_video_files_to_compress`: the two
in-memory processed sets plus traces of `remove()` calls, `rename()` calls,
FFMPEG invocations (source, target) and persistence flushes. -/
structure VideoState where
  compressedVideoFiles : List String
  unableToCompressVideoFiles : List String
  removedFiles : List String
  renames : List (String × String)
  ffmpegCalls : List (String × String)
  dumps : List (String × List String)
  deriving DecidableEq, Repr

/-- The `_NEW` target path of the video transcoder:
`newFilePath = local_filePath.rsplit(".", 1)[0] + '_NEW.mp4'`. -/
def newFilePathOf (local_filePath : String) : String :=
  rsplitDotHead local_filePath ++ "_NEW.mp4"

/-- Body of the HEAD-side `for line in lines:` loop of
`_find_video_files_to_compress` (megaManager.py lines 812-862), for a single
listing entry.  The bounded remove/rename retry loops of the source are
modelled as one recorded operation (the source retries the same call on a
transient filesystem race).  Note the HEAD body ends after the
`elif path.exists(newFilePath)` branch: when the transcode fails and no new
file exists, the source only logs. -/
def process_video_line (w : VideoWorld) (localRoot_adj remoteRoot : String)
    (st : VideoState) (line : RemoteEntry) : VideoState :=
  if line.remote_type == "0"
      && COMPRESSION_VIDEO_EXTENSIONS.contains line.remote_fileExt
      && w.isfile (localFilePathOf localRoot_adj remoteRoot line)
      && !st.compressedVideoFiles.contains (localFilePathOf localRoot_adj remoteRoot line)
      && !st.unableToCompressVideoFiles.contains (localFilePathOf localRoot_adj remoteRoot line) then
    if w.compress_video_file (localFilePathOf localRoot_adj remoteRoot line)
          (newFilePathOf (localFilePathOf localRoot_adj remoteRoot line))
        && w.exists_new_after (newFilePathOf (localFilePathOf localRoot_adj remoteRoot line)) then
      { st with
          removedFiles :=
            (if w.exists_new_before (newFilePathOf (localFilePathOf localRoot_adj remoteRoot line)) then
              st.removedFiles ++ [newFilePathOf (localFilePathOf localRoot_adj remoteRoot line)]
            else st.removedFiles)
              ++ [localFilePathOf localRoot_adj remoteRoot line]
          renames := st.renames
            ++ [(newFilePathOf (localFilePathOf localRoot_adj remoteRoot line),
                  pySub "_NEW" "" (newFilePathOf (localFilePathOf localRoot_adj remoteRoot line)))]
          compressedVideoFiles := st.compressedVideoFiles
            ++ [newFilePathOf (localFilePathOf localRoot_adj remoteRoot line)]
          ffmpegCalls := st.ffmpegCalls
            ++ [(localFilePathOf localRoot_adj remoteRoot line,
                  newFilePathOf (localFilePathOf localRoot_adj remoteRoot line))]
          dumps := st.dumps
            ++ [(COMPRESSED_VIDEOS_FILE,
                  st.compressedVideoFiles
                    ++ [newFilePathOf (localFilePathOf localRoot_adj remoteRoot line)])] }
    else if w.exists_new_after (newFilePathOf (localFilePathOf localRoot_adj remoteRoot line)) then
      { st with
          removedFiles :=
            (if w.exists_new_before (newFilePathOf (localFilePathOf localRoot_adj remoteRoot line)) then
              st.removedFiles ++ [newFilePathOf (localFilePathOf localRoot_adj remoteRoot line)]
            else st.removedFiles)
              ++ [newFilePathOf (localFilePathOf localRoot_adj remoteRoot line)]
          ffmpegCalls := st.ffmpegCalls
            ++ [(localFilePathOf localRoot_adj remoteRoot line,
                  newFilePathOf (localFilePathOf localRoot_adj remoteRoot line))] }
    else
      { st with
          removedFiles :=
            if w.exists_new_before (newFilePathOf (localFilePathOf localRoot_adj remoteRoot line)) then
              st.removedFiles ++ [newFilePathOf (localFilePathOf localRoot_adj remoteRoot line)]
            else st.removedFiles
          ffmpegCalls := st.ffmpegCalls
            ++ [(localFilePathOf localRoot_adj remoteRoot line,
                  newFilePathOf (localFilePathOf localRoot_adj remoteRoot line))] }
  else st

/-- `_find_video_files_to_compress` (HEAD side): normalize the local root and
fold the loop body over the listing. -/
def find_video_files_to_compress (w : VideoWorld) (localRoot remoteRoot : String)
    (lines : List RemoteEntry) (st : VideoState) : VideoState :=
  lines.foldl (process_video_line w (pySub "\\" "/" localRoot) remoteRoot) st

/-! ### Remote Pruning Pipeline (`megaManager.py`)

`_get_remote_files_that_dont_exist_locally` (HEAD side, lines 1033-1153)
computes, for every remote file path of the recursive listing, the
corresponding local path by the root-substitution rule and collects the paths
whose local counterpart does not exist.  `_delete_remote_files_that_dont_exist_locally`
(HEAD side, lines 581-622) then walks that list with the removed-remote-files
guard list.  The gateway call `remove_remote_file` lives in `MegaTools_Lib`,
which is not under `src/`. -/

/-- External collaborators of the pruning pipeline.  `path_exists` is the
local filesystem probe.  Modelled from the spec: `remove_remote_file`
(`deleteRemoteFile` of the Remote Storage Gateway, not under `src/`) reports
boolean success and never raises — every external-process failure is caught at
the gateway boundary. -/
structure PruneWorld where
  path_exists : String → Bool
  remove_remote_file : String → Bool

/-- One observable action of the pruning loop, in program order: the in-memory
append to the removed-remote-files list, the gateway delete call with its
argument and outcome, and the persistence flush with the flushed contents. -/
inductive PruneEvent
  | append (p : String)
  | delete (p : String) (ok : Bool)
  | flush (items : List String)
  deriving DecidableEq, Repr

/-- State of `_delete_remote_files_that_dont_exist_locally`: the in-memory
removed-remote-files list, the arguments of the issued gateway delete calls,
the flushed snapshots, and the full ordered event trace. -/
structure PruneState where
  removedRemoteFiles : List String
  deleted : List String
  flushes : List (List String)
  events : List PruneEvent
  deriving DecidableEq, Repr

/-- Embedding of `_get_remote_files_that_dont_exist_locally` (HEAD side):
note it collects `local_filePath`, the computed local counterpart, not the
remote path itself. -/
def get_remote_files_that_dont_exist_locally (w : PruneWorld)
    (localRoot remoteRoot : String) (remoteFiles : List String) : List String :=
  remoteFiles.foldl
    (fun dontExistLocally remote_filePath =>
      if w.path_exists (pySub "\\" "/" localRoot ++ pySub remoteRoot "" remote_filePath) then
        dontExistLocally
      else
        dontExistLocally ++ [pySub "\\" "/" localRoot ++ pySub remoteRoot "" remote_filePath])
    []

/-- Body of the `for filePath in dontExistLocally:` loop of
`_delete_remote_files_that_dont_exist_locally` (HEAD side, lines 607-622):
skip when the path is already recorded, or when some recorded entry occurs in
it (Python substring test, first match breaks); otherwise append to the
removed list, issue the gateway delete, and flush the list — in that order,
which the event trace records. -/
def prune_one_file (w : PruneWorld) (st : PruneState) (filePath : String) :
    PruneState :=
  if !st.removedRemoteFiles.contains filePath then
    if !st.removedRemoteFiles.any (fun removed_file => pyIn removed_file filePath) then
      { removedRemoteFiles := st.removedRemoteFiles ++ [filePath]
        deleted := st.deleted ++ [filePath]
        flushes := st.flushes ++ [st.removedRemoteFiles ++ [filePath]]
        events := st.events
          ++ [PruneEvent.append filePath,
              PruneEvent.delete filePath (w.remove_remote_file filePath),
              PruneEvent.flush (st.removedRemoteFiles ++ [filePath])] }
    else st
  else st

/-- `_delete_remote_files_that_dont_exist_locally` (HEAD side): fold the
guarded deletion over the discovered paths. -/
def delete_remote_files_that_dont_exist_locally (w : PruneWorld)
    (st : PruneState) (dontExistLocally : List String) : PruneState :=
  dontExistLocally.foldl (prune_one_file w) st

/-! ### Task Orchestrator (`megaManager.py`)

`_wait_for_threads_to_finish` (HEAD side, lines 1529-1583) polls the worker
registry `self.__threads`: a `for thread in self.__threads:` loop removes each
finished thread from the list it is iterating over and marks
`megaFileThreads_found` when a still-running thread has `megaFile` in its
name; after the scan, the aggregated details export fires once when no such
thread was seen and `megaFileFinished` is still unset.  Python list iteration
is by index, so `remove` shifts the successor of a removed element into the
slot the iterator has just consumed, and that successor is skipped for the
rest of the scan. -/

/-- A worker thread of the registry: its name and the number of remaining
scan passes during which it is still alive (`0` means finished).  Threads are
distinguishable values, matching Python object identity. -/
structure PyThread where
  name : String
  life : Nat
  deriving DecidableEq, Repr

/-- `Thread.isAlive()`. -/
def isAliveThread (t : PyThread) : Bool := t.life != 0

/-- Index-based embedding of the `for thread in self.__threads:` scan with
in-place `remove`, matching CPython semantics: the index advances by one each
step whether or not the current element was removed, and the loop ends when
the index reaches the current (shrinking) length.  `fuel` only bounds the
number of index steps; the initial length is always enough. -/
def scan_threads_fuel : Nat → List PyThread → Nat → Bool → List PyThread × Bool
  | 0, l, _, found => (l, found)
  | fuel + 1, l, i, found =>
    if h : i < l.length then
      if isAliveThread (l.get ⟨i, h⟩) then
        scan_threads_fuel fuel l (i + 1)
          (found || pyIn "megaFile" (l.get ⟨i, h⟩).name)
      else
        scan_threads_fuel fuel (l.erase (l.get ⟨i, h⟩)) (i + 1) found
    else (l, found)

/-- One full scan of the registry, returning the surviving list and whether a
running detail-gathering (`megaFile`) thread was observed. -/
def waitScanPass (threads : List PyThread) : List PyThread × Bool :=
  scan_threads_fuel threads.length threads 0 false

/-- One non-timed-out iteration of the `while len(self.__threads) > 0:` body
of `_wait_for_threads_to_finish` (HEAD side): scan the registry, then fire
`_export_accounts_details_dict` when no running `megaFile` thread was seen and
the export has not fired yet.  Returns the surviving registry, the updated
`megaFileFinished` flag, and whether the export fired during this pass. -/
def wait_body_step (threads : List PyThread) (megaFileFinished : Bool) :
    List PyThread × Bool × Bool :=
  if !(waitScanPass threads).2 && !megaFileFinished then
    ((waitScanPass threads).1, true, true)
  else ((waitScanPass threads).1, megaFileFinished, false)

/-! ### Feature-flag scheduling (`MegaManager.run`, HEAD side, lines 1602-1644) -/

/-- The task groups `run` can schedule, one constructor per
`_create_thread...` helper. -/
inductive MegaTask
  | createProfilesDataFile
  | localUnfinishedFileRemover
  | download
  | upload
  | removeRemoteFileDeletion
  | compressImageFiles
  | compressVideoFiles
  deriving DecidableEq, Repr

/-- Embedding of the scheduling decisions of `MegaManager.run` (HEAD side):
the profiles-data-file group always starts first, each feature flag guards its
group, and the compression block is an `if compressAll / elif compressImages /
elif compressVideos` cascade. -/
def run_schedule (removeIncomplete download upload removeRemote
    compressAll compressImages compressVideos : Bool) : List MegaTask :=
  [MegaTask.createProfilesDataFile]
    ++ (if removeIncomplete then [MegaTask.localUnfinishedFileRemover] else [])
    ++ (if download then [MegaTask.download] else [])
    ++ (if upload then [MegaTask.upload] else [])
    ++ (if removeRemote then [MegaTask.removeRemoteFileDeletion] else [])
    ++ (if compressAll then [MegaTask.compressImageFiles, MegaTask.compressVideoFiles]
        else if compressImages then [MegaTask.compressImageFiles]
        else if compressVideos then [MegaTask.compressVideoFiles]
        else [])

/-! ### Concrete worlds and states used to instantiate theorems -/

/-- An image-pipeline world where every file exists, compression succeeds and
the sidecar appears. -/
def trivialImageWorld : ImageWorld :=
  ⟨fun _ => true, fun _ => true, fun _ => true⟩

/-- A video-pipeline world where every original exists, no stale `_NEW` file
is present, and transcoding succeeds producing the target. -/
def trivialVideoWorld : VideoWorld :=
  ⟨fun _ => true, fun _ => false, fun _ _ => true, fun _ => true⟩

/-- An image-pipeline start state whose compressed set already holds
`/L/p.jpg`. -/
def c1ImageStart : ImageState := ⟨["/L/p.jpg"], [], [], [], [], []⟩

/-- A video-pipeline start state whose compressed set already holds
`/L/v.avi`. -/
def c1VideoStart : VideoState := ⟨["/L/v.avi"], [], [], [], [], []⟩

/-- A pruning world where no file exists locally and remote deletion
succeeds. -/
def c4World : PruneWorld := ⟨fun _ => false, fun _ => true⟩

/-- A pruning state in which the directory `/a/b` is already recorded as
removed. -/
def c4Start : PruneState := ⟨["/a/b"], [], [], []⟩

/-- A pruning world where no file exists locally and the remote deletion call
FAILS, to exercise the record-before-delete ordering. -/
def c10World : PruneWorld := ⟨fun _ => false, fun _ => false⟩

/-- A pruning state with one unrelated recorded entry. -/
def c10Start : PruneState := ⟨["/x"], [], [], []⟩

/-! ### Helper lemmas -/

/-- A recorded entry is a substring of any extension of the path, so in
particular every path-prefix of a discovered path passes Python's
`removed_file in filePath` containment test. -/
theorem subStrList_of_isPrefixOf (needle hay : List Char)
    (h : needle.isPrefixOf hay = true) : subStrList needle hay = true := by
  cases hay with
  | nil =>
    cases needle with
    | nil => rfl
    | cons c t => simp [List.isPrefixOf] at h
  | cons c t =>
    simp [subStrList, h]

/-- A list whose `contains` test is false does not hold the element. -/
theorem contains_false_not_mem (l : List String) (a : String)
    (h : l.contains a = false) : a ∉ l := by
  intro hm
  simp [List.contains] at h
  exact h hm

/-- One image-pipeline step preserves membership of a path in either
processed set and never invokes the transcoder on such a path: the guard of
`_find_image_files_to_compress` requires the computed path to be absent from
both sets, and no branch removes set entries. -/
theorem process_image_line_preserves (w : ImageWorld) (lra rr : String)
    (line : RemoteEntry) (st : ImageState) (p : String)
    (hmem : p ∈ st.compressedImageFiles ∨ p ∈ st.unableToCompressImageFiles)
    (hcalls : p ∉ st.transcoderCalls) :
    (p ∈ (process_image_line w lra rr st line).compressedImageFiles ∨
      p ∈ (process_image_line w lra rr st line).unableToCompressImageFiles) ∧
    p ∉ (process_image_line w lra rr st line).transcoderCalls := by
  unfold process_image_line
  split
  case isTrue hcond =>
    simp only [Bool.and_eq_true, Bool.not_eq_true'] at hcond
    obtain ⟨⟨⟨⟨-, -⟩, -⟩, hc1⟩, hc2⟩ := hcond
    have hne : localFilePathOf lra rr line ≠ p := by
      intro he
      rw [he] at hc1 hc2
      rcases hmem with hm | hm
      · exact contains_false_not_mem _ _ hc1 hm
      · exact contains_false_not_mem _ _ hc2 hm
    split
    · split
      · refine ⟨hmem, ?_⟩
        simp only [List.mem_append, List.mem_singleton]
        rintro (h | h)
        · exact hcalls h
        · exact hne h.symm
      · refine ⟨?_, ?_⟩
        · rcases hmem with hm | hm
          · exact Or.inl hm
          · exact Or.inr (List.mem_append_left _ hm)
        · simp only [List.mem_append, List.mem_singleton]
          rintro (h | h)
          · exact hcalls h
          · exact hne h.symm
    · refine ⟨?_, ?_⟩
      · rcases hmem with hm | hm
        · exact Or.inl hm
        · exact Or.inr (List.mem_append_left _ hm)
      · simp only [List.mem_append, List.mem_singleton]
        rintro (h | h)
        · exact hcalls h
        · exact hne h.symm
  case isFalse hcond =>
    exact ⟨hmem, hcalls⟩

/-- One video-pipeline step preserves membership of a path in either
processed set and never invokes FFMPEG with such a path as source. -/
theorem process_video_line_preserves (w : VideoWorld) (lra rr : String)
    (line : RemoteEntry) (st : VideoState) (p : String)
    (hmem : p ∈ st.compressedVideoFiles ∨ p ∈ st.unableToCompressVideoFiles)
    (hcalls : p ∉ st.ffmpegCalls.map Prod.fst) :
    (p ∈ (process_video_line w lra rr st line).compressedVideoFiles ∨
      p ∈ (process_video_line w lra rr st line).unableToCompressVideoFiles) ∧
    p ∉ (process_video_line w lra rr st line).ffmpegCalls.map Prod.fst := by
  unfold process_video_line
  split
  case isTrue hcond =>
    simp only [Bool.and_eq_true, Bool.not_eq_true'] at hcond
    obtain ⟨⟨⟨⟨-, -⟩, -⟩, hc1⟩, hc2⟩ := hcond
    have hne : localFilePathOf lra rr line ≠ p := by
      intro he
      rw [he] at hc1 hc2
      rcases hmem with hm | hm
      · exact contains_false_not_mem _ _ hc1 hm
      · exact contains_false_not_mem _ _ hc2 hm
    split
    · refine ⟨?_, ?_⟩
      · rcases hmem with hm | hm
        · exact Or.inl (List.mem_append_left _ hm)
        · exact Or.inr hm
      · simp only [List.map_append, List.map_cons, List.map_nil,
          List.mem_append, List.mem_singleton]
        rintro (h | h)
        · exact hcalls h
        · exact hne h.symm
    · split
      · refine ⟨hmem, ?_⟩
        simp only [List.map_append, List.map_cons, List.map_nil,
          List.mem_append, List.mem_singleton]
        rintro (h | h)
        · exact hcalls h
        · exact hne h.symm
      · refine ⟨hmem, ?_⟩
        simp only [List.map_append, List.map_cons, List.map_nil,
          List.mem_append, List.mem_singleton]
        rintro (h | h)
        · exact hcalls h
        · exact hne h.symm
  case isFalse hcond =>
    exact ⟨hmem, hcalls⟩

/-- The image-pipeline scan preserves the skip invariant along the whole
listing. -/
theorem foldl_image_preserves (w : ImageWorld) (lra rr : String)
    (lines : List RemoteEntry) :
    ∀ (st : ImageState) (p : String),
      (p ∈ st.compressedImageFiles ∨ p ∈ st.unableToCompressImageFiles) →
      p ∉ st.transcoderCalls →
      ((p ∈ (lines.foldl (process_image_line w lra rr) st).compressedImageFiles ∨
          p ∈ (lines.foldl (process_image_line w lra rr) st).unableToCompressImageFiles) ∧
        p ∉ (lines.foldl (process_image_line w lra rr) st).transcoderCalls) := by
  induction lines with
  | nil => exact fun st p hmem hcalls => ⟨hmem, hcalls⟩
  | cons l ls ih =>
    intro st p hmem hcalls
    have hstep := process_image_line_preserves w lra rr l st p hmem hcalls
    exact ih (process_image_line w lra rr st l) p hstep.1 hstep.2

/-- The video-pipeline scan preserves the skip invariant along the whole
listing. -/
theorem foldl_video_preserves (w : VideoWorld) (lra rr : String)
    (lines : List RemoteEntry) :
    ∀ (st : VideoState) (p : String),
      (p ∈ st.compressedVideoFiles ∨ p ∈ st.unableToCompressVideoFiles) →
      p ∉ st.ffmpegCalls.map Prod.fst →
      ((p ∈ (lines.foldl (process_video_line w lra rr) st).compressedVideoFiles ∨
          p ∈ (lines.foldl (process_video_line w lra rr) st).unableToCompressVideoFiles) ∧
        p ∉ (lines.foldl (process_video_line w lra rr) st).ffmpegCalls.map Prod.fst) := by
  induction lines with
  | nil => exact fun st p hmem hcalls => ⟨hmem, hcalls⟩
  | cons l ls ih =>
    intro st p hmem hcalls
    have hstep := process_video_line_preserves w lra rr l st p hmem hcalls
    exact ih (process_video_line w lra rr st l) p hstep.1 hstep.2

/-- One pruning step keeps a recorded entry recorded and, for any path the
entry is a string prefix of, issues no delete and records no append. -/
theorem prune_one_file_preserves (w : PruneWorld) (st : PruneState)
    (q p r : String)
    (hpre : r.data.isPrefixOf p.data = true)
    (hr : r ∈ st.removedRemoteFiles)
    (hdel : p ∉ st.deleted)
    (happ : PruneEvent.append p ∉ st.events) :
    r ∈ (prune_one_file w st q).removedRemoteFiles ∧
    p ∉ (prune_one_file w st q).deleted ∧
    PruneEvent.append p ∉ (prune_one_file w st q).events := by
  unfold prune_one_file
  split
  case isTrue h1 =>
    split
    case isTrue h2 =>
      have hqp : q ≠ p := by
        intro he
        subst he
        simp only [Bool.not_eq_true', List.any_eq_false] at h2
        have hcontra := h2 r hr
        rw [pyIn, subStrList_of_isPrefixOf r.data q.data hpre] at hcontra
        exact hcontra rfl
      refine ⟨List.mem_append_left _ hr, ?_, ?_⟩
      · simp only [List.mem_append, List.mem_singleton]
        rintro (h | h)
        · exact hdel h
        · exact hqp h.symm
      · simp only [List.mem_append, List.mem_cons, List.not_mem_nil, or_false]
        rintro (h | h | h | h)
        · exact happ h
        · exact hqp (PruneEvent.append.inj h).symm
        · exact PruneEvent.noConfusion h
        · exact PruneEvent.noConfusion h
    case isFalse => exact ⟨hr, hdel, happ⟩
  case isFalse => exact ⟨hr, hdel, happ⟩

/-- The pruning loop preserves the prefix-guard invariant along the whole
discovered list. -/
theorem foldl_prune_preserves (w : PruneWorld) (paths : List String)
    (p r : String) (hpre : r.data.isPrefixOf p.data = true) :
    ∀ st : PruneState,
      r ∈ st.removedRemoteFiles → p ∉ st.deleted →
      PruneEvent.append p ∉ st.events →
      (r ∈ (paths.foldl (prune_one_file w) st).removedRemoteFiles ∧
        p ∉ (paths.foldl (prune_one_file w) st).deleted ∧
        PruneEvent.append p ∉ (paths.foldl (prune_one_file w) st).events) := by
  induction paths with
  | nil => exact fun st hr hdel happ => ⟨hr, hdel, happ⟩
  | cons q qs ih =>
    intro st hr hdel happ
    have hstep := prune_one_file_preserves w st q p r hpre hr hdel happ
    exact ih (prune_one_file w st q) hstep.1 hstep.2.1 hstep.2.2

/-! ### Claim theorems -/

/-- C1: idempotence of the Compression Pipeline — for every path already
present in the matching compressed set or the matching unable-to-compress set
of the image (resp. video) pipeline, the pipeline never invokes the media
transcoder on that path, over any two successive scans of arbitrary listings
against arbitrary remote/local state.  In particular running the pipeline
twice against unchanged state produces no second transcoder invocation for
such a file. -/
theorem C1_compression_idempotence
    (iw : ImageWorld) (vw : VideoWorld) (localRoot remoteRoot : String)
    (ilines1 ilines2 vlines1 vlines2 : List RemoteEntry)
    (ist : ImageState) (vst : VideoState) (p q : String)
    (hic : ist.transcoderCalls = [])
    (hvc : vst.ffmpegCalls = [])
    (hp : p ∈ ist.compressedImageFiles ∨ p ∈ ist.unableToCompressImageFiles)
    (hq : q ∈ vst.compressedVideoFiles ∨ q ∈ vst.unableToCompressVideoFiles) :
    p ∉ (find_image_files_to_compress iw localRoot remoteRoot ilines2
          (find_image_files_to_compress iw localRoot remoteRoot ilines1 ist)).transcoderCalls
    ∧ q ∉ ((find_video_files_to_compress vw localRoot remoteRoot vlines2
          (find_video_files_to_compress vw localRoot remoteRoot vlines1 vst)).ffmpegCalls.map Prod.fst) := by
  unfold find_image_files_to_compress find_video_files_to_compress
  have hic0 : p ∉ ist.transcoderCalls := by rw [hic]; exact List.not_mem_nil p
  have hvc0 : q ∉ vst.ffmpegCalls.map Prod.fst := by
    rw [hvc]; exact List.not_mem_nil q
  have h1 := foldl_image_preserves iw (pySub "\\" "/" localRoot) remoteRoot
    ilines1 ist p hp hic0
  have h2 := foldl_image_preserves iw (pySub "\\" "/" localRoot) remoteRoot
    ilines2 _ p h1.1 h1.2
  have h3 := foldl_video_preserves vw (pySub "\\" "/" localRoot) remoteRoot
    vlines1 vst q hq hvc0
  have h4 := foldl_video_preserves vw (pySub "\\" "/" localRoot) remoteRoot
    vlines2 _ q h3.1 h3.2
  exact ⟨h2.2, h4.2⟩

/-- Witness for C1 at concrete inputs: with `/L/p.jpg` already in the
compressed-images set and `/L/v.avi` in the compressed-videos set, two
successive scans of a listing that shows both files invoke no transcoder on
either path. -/
theorem C1_compression_idempotence_witness :
    c1ImageStart.transcoderCalls = [] ∧
    c1VideoStart.ffmpegCalls = [] ∧
    ("/L/p.jpg" ∈ c1ImageStart.compressedImageFiles ∨
      "/L/p.jpg" ∈ c1ImageStart.unableToCompressImageFiles) ∧
    ("/L/v.avi" ∈ c1VideoStart.compressedVideoFiles ∨
      "/L/v.avi" ∈ c1VideoStart.unableToCompressVideoFiles) ∧
    ("/L/p.jpg" ∉ (find_image_files_to_compress trivialImageWorld "/L" "/R"
          [⟨"0", ".jpg", "/R/p.jpg"⟩]
          (find_image_files_to_compress trivialImageWorld "/L" "/R"
            [⟨"0", ".jpg", "/R/p.jpg"⟩] c1ImageStart)).transcoderCalls
      ∧ "/L/v.avi" ∉ ((find_video_files_to_compress trivialVideoWorld "/L" "/R"
          [⟨"0", ".avi", "/R/v.avi"⟩]
          (find_video_files_to_compress trivialVideoWorld "/L" "/R"
            [⟨"0", ".avi", "/R/v.avi"⟩] c1VideoStart)).ffmpegCalls.map Prod.fst)) :=
  ⟨rfl, rfl, by decide, by decide,
    C1_compression_idempotence trivialImageWorld trivialVideoWorld "/L" "/R"
      [⟨"0", ".jpg", "/R/p.jpg"⟩] [⟨"0", ".jpg", "/R/p.jpg"⟩]
      [⟨"0", ".avi", "/R/v.avi"⟩] [⟨"0", ".avi", "/R/v.avi"⟩]
      c1ImageStart c1VideoStart "/L/p.jpg" "/L/v.avi"
      rfl rfl (by decide) (by decide)⟩

/-- C2: evaluating one polling pass of `_wait_for_threads_to_finish` on a
registry holding a finished download worker followed by a running
detail-gathering worker — removing the finished worker mid-iteration makes
the scan skip the detail-gatherer, so the aggregated-details export fires
during this pass even though a worker tagged `megaFile` is still running,
contradicting the claim that the export happens only after no detail-gatherer
remains running. -/
theorem C2_export_fires_while_gatherer_running :
    wait_body_step [⟨"thread_download", 0⟩, ⟨"thread_megaFile_acc1", 3⟩] false
        = ([⟨"thread_megaFile_acc1", 3⟩], true, true) ∧
    pyIn "megaFile" "thread_megaFile_acc1" = true ∧
    isAliveThread ⟨"thread_megaFile_acc1", 3⟩ = true := by
  decide

/-- C3: evaluating the image pipeline on an eligible `pic.jpg` whose
transcode succeeds and whose backup sidecar exists — the sidecar is removed
and a flush of the compressed-images file happens, but the flushed snapshot
is the untouched (empty) set and the local path is never added to the
compressed-images set; the source appends it to the stray `compressedFiles`
attribute instead, contradicting the claimed postcondition. -/
theorem C3_image_success_not_recorded :
    find_image_files_to_compress
        ⟨fun _ => true, fun _ => true, fun _ => true⟩
        "C:\\local" "/Root" [⟨"0", ".jpg", "/Root/pic.jpg"⟩]
        ⟨[], [], [], [], [], []⟩
      = ⟨[], [], ["C:/local/pic.jpg"], ["C:/local/pic.jpg.compressimages-backup"],
          ["C:/local/pic.jpg"], [(COMPRESSED_IMAGES_FILE, [])]⟩ := by
  decide

/-- C4: prefix-guard of the Remote Pruning Pipeline — for every discovered
path of which some already-recorded entry of the removed-remote-files set is
a path prefix, the pruning loop issues no delete call for that path and never
appends it to the set. -/
theorem C4_prune_prefix_guard (w : PruneWorld) (st : PruneState)
    (dontExistLocally : List String) (p r : String)
    (hr : r ∈ st.removedRemoteFiles)
    (hpre : r.data.isPrefixOf p.data = true)
    (hdel : p ∉ st.deleted)
    (happ : PruneEvent.append p ∉ st.events) :
    p ∉ (delete_remote_files_that_dont_exist_locally w st dontExistLocally).deleted ∧
    PruneEvent.append p
      ∉ (delete_remote_files_that_dont_exist_locally w st dontExistLocally).events := by
  unfold delete_remote_files_that_dont_exist_locally
  have h := foldl_prune_preserves w dontExistLocally p r hpre st hr hdel happ
  exact ⟨h.2.1, h.2.2⟩

/-- Witness for C4 at concrete inputs: with `/a/b` recorded as removed, a
discovered `/a/b/c` triggers no delete call and is not appended. -/
theorem C4_prune_prefix_guard_witness :
    "/a/b" ∈ c4Start.removedRemoteFiles ∧
    ("/a/b" : String).data.isPrefixOf ("/a/b/c" : String).data = true ∧
    "/a/b/c" ∉ c4Start.deleted ∧
    PruneEvent.append "/a/b/c" ∉ c4Start.events ∧
    ("/a/b/c" ∉ (delete_remote_files_that_dont_exist_locally c4World c4Start
        ["/a/b/c"]).deleted ∧
      PruneEvent.append "/a/b/c"
        ∉ (delete_remote_files_that_dont_exist_locally c4World c4Start
            ["/a/b/c"]).events) :=
  ⟨by decide, by decide, by decide, by decide,
    C4_prune_prefix_guard c4World c4Start ["/a/b/c"] "/a/b/c" "/a/b"
      (by decide) (by decide) (by decide) (by decide)⟩

/-- C5: evaluating the pruning pipeline on remote file `/Root/d/a.jpg` with
local root `C:\local`, absent locally and not blocked by any guard — the one
delete call issued through the gateway receives `C:/local/d/a.jpg`, the
computed LOCAL path, which differs from the file's remote path
`/Root/d/a.jpg`; `_get_remote_files_that_dont_exist_locally` collects local
paths although its docstring promises remote files and the gateway contract
is deleteFile(creds, remotePath). -/
theorem C5_delete_receives_local_path :
    delete_remote_files_that_dont_exist_locally
        ⟨fun _ => false, fun _ => true⟩ ⟨[], [], [], []⟩
        (get_remote_files_that_dont_exist_locally
          ⟨fun _ => false, fun _ => true⟩ "C:\\local" "/Root" ["/Root/d/a.jpg"])
      = ⟨["C:/local/d/a.jpg"], ["C:/local/d/a.jpg"], [["C:/local/d/a.jpg"]],
          [PruneEvent.append "C:/local/d/a.jpg",
            PruneEvent.delete "C:/local/d/a.jpg" true,
            PruneEvent.flush ["C:/local/d/a.jpg"]]⟩ ∧
    ("C:/local/d/a.jpg" : String) ≠ "/Root/d/a.jpg" := by
  decide

/-- C8: evaluating the video pipeline on an eligible `v.avi` whose transcode
returns failure and whose `_NEW` output file does not exist — FFMPEG is
invoked once, and then nothing is recorded: the unable-to-compress-videos set
stays empty and no flush occurs, contradicting the claim that such a path is
recorded in the unable-to-compress-videos set (the HEAD-side failure branch
only logs). -/
theorem C8_video_failure_not_recorded :
    find_video_files_to_compress
        ⟨fun _ => true, fun _ => false, fun _ _ => false, fun _ => false⟩
        "C:\\local" "/Root" [⟨"0", ".avi", "/Root/v.avi"⟩]
        ⟨[], [], [], [], [], []⟩
      = ⟨[], [], [], [], [("C:/local/v.avi", "C:/local/v_NEW.mp4")], []⟩ := by
  decide

/-- C9: compression feature-flag precedence in `run` — the image-compression
worker is scheduled exactly when compress-all or compress-images is enabled,
and the video-compression worker exactly when compress-all is enabled or
compress-videos is enabled while compress-images is not; in particular, with
both compress-images and compress-videos enabled but compress-all disabled,
only the image worker is scheduled. -/
theorem C9_compression_flag_precedence :
    ∀ removeIncomplete download upload removeRemote
        compressAll compressImages compressVideos : Bool,
      (MegaTask.compressImageFiles
          ∈ run_schedule removeIncomplete download upload removeRemote
              compressAll compressImages compressVideos
        ↔ (compressAll = true ∨ compressImages = true)) ∧
      (MegaTask.compressVideoFiles
          ∈ run_schedule removeIncomplete download upload removeRemote
              compressAll compressImages compressVideos
        ↔ (compressAll = true ∨ (compressVideos = true ∧ compressImages = false))) := by
  decide

/-- C10: the pruning loop records before deleting — for every path passing
both guards, the state after the step appends the path to the
removed-remote-files list and flushes that list, the event trace shows the
append strictly before the gateway delete call, none of this depends on the
delete outcome (the world is arbitrary and the recorded outcome is exactly
whatever the gateway returns), and a second encounter of the same path is a
no-op, so a path whose deletion failed is never retried. -/
theorem C10_append_precedes_delete (w : PruneWorld) (st : PruneState)
    (filePath : String)
    (h1 : st.removedRemoteFiles.contains filePath = false)
    (h2 : st.removedRemoteFiles.any (fun removed_file => pyIn removed_file filePath) = false) :
    (prune_one_file w st filePath).events
        = st.events
          ++ [PruneEvent.append filePath,
              PruneEvent.delete filePath (w.remove_remote_file filePath),
              PruneEvent.flush (st.removedRemoteFiles ++ [filePath])] ∧
    (prune_one_file w st filePath).removedRemoteFiles
        = st.removedRemoteFiles ++ [filePath] ∧
    (prune_one_file w st filePath).flushes
        = st.flushes ++ [st.removedRemoteFiles ++ [filePath]] ∧
    prune_one_file w (prune_one_file w st filePath) filePath
        = prune_one_file w st filePath := by
  have hstep : prune_one_file w st filePath
      = { removedRemoteFiles := st.removedRemoteFiles ++ [filePath]
          deleted := st.deleted ++ [filePath]
          flushes := st.flushes ++ [st.removedRemoteFiles ++ [filePath]]
          events := st.events
            ++ [PruneEvent.append filePath,
                PruneEvent.delete filePath (w.remove_remote_file filePath),
                PruneEvent.flush (st.removedRemoteFiles ++ [filePath])] } := by
    unfold prune_one_file
    rw [h1, h2]
    rfl
  refine ⟨by rw [hstep], by rw [hstep], by rw [hstep], ?_⟩
  rw [hstep]
  unfold prune_one_file
  have hcontains : ((st.removedRemoteFiles ++ [filePath]).contains filePath) = true := by
    simp [List.contains, List.elem_eq_mem]
  simp only [hcontains, Bool.not_true, Bool.false_eq_true, if_false]

/-- Witness for C10 at concrete inputs: path `/a/b` passes both guards in
the state whose removed list holds only `/x`, and under a world whose delete
FAILS the path is still appended, flushed and never retried. -/
theorem C10_append_precedes_delete_witness :
    c10Start.removedRemoteFiles.contains "/a/b" = false ∧
    c10Start.removedRemoteFiles.any (fun removed_file => pyIn removed_file "/a/b") = false ∧
    ((prune_one_file c10World c10Start "/a/b").events
        = c10Start.events
          ++ [PruneEvent.append "/a/b",
              PruneEvent.delete "/a/b" (c10World.remove_remote_file "/a/b"),
              PruneEvent.flush (c10Start.removedRemoteFiles ++ ["/a/b"])] ∧
      (prune_one_file c10World c10Start "/a/b").removedRemoteFiles
          = c10Start.removedRemoteFiles ++ ["/a/b"] ∧
      (prune_one_file c10World c10Start "/a/b").flushes
          = c10Start.flushes ++ [c10Start.removedRemoteFiles ++ ["/a/b"]] ∧
      prune_one_file c10World (prune_one_file c10World c10Start "/a/b") "/a/b"
          = prune_one_file c10World c10Start "/a/b") :=
  ⟨by decide, by decide,
    C10_append_precedes_delete c10World c10Start "/a/b" (by decide) (by decide)⟩

/-- C6: Persistent List Store round trip — saving a non-empty deduplicated
list of path strings to a file and then loading that file yields the same set
of paths (order-insensitive). -/
theorem C6_store_round_trip (fs : FileSys) (filePath : String)
    (xs : List String) (hne : xs ≠ []) (hdedup : xs.Nodup) :
    (load_file_as_list filePath (dump_list_into_file xs filePath fs)).toFinset
      = xs.toFinset := by
  simp [load_file_as_list, dump_list_into_file]

/-- Witness for C6 at a concrete store state: round-tripping the deduplicated
non-empty list `["/a/p.jpg", "/a/q.png"]` through an initially empty
filesystem preserves the set of paths. -/
theorem C6_store_round_trip_witness :
    (["/a/p.jpg", "/a/q.png"] : List String) ≠ [] ∧
    (["/a/p.jpg", "/a/q.png"] : List String).Nodup ∧
    (load_file_as_list "data/f.npz"
        (dump_list_into_file ["/a/p.jpg", "/a/q.png"] "data/f.npz"
          (fun _ => none))).toFinset
      = (["/a/p.jpg", "/a/q.png"] : List String).toFinset :=
  ⟨by decide, by decide,
    C6_store_round_trip (fun _ => none) "data/f.npz" ["/a/p.jpg", "/a/q.png"]
      (by decide) (by decide)⟩

/-- C7: the load operation fails soft — for every file path it returns a list
of strings, and that list is empty whenever the file is absent or
unreadable/corrupt; being a total function, it never propagates an exception
to the caller. -/
theorem C7_load_fails_soft (fs : FileSys) (filePath : String)
    (h : fs filePath = none ∨ fs filePath = some StoredFile.corrupt) :
    load_file_as_list filePath fs = [] := by
  rcases h with h | h <;> simp [load_file_as_list, h]

/-- Witness for C7 at a concrete input: loading from a filesystem where the
file is absent returns the empty list. -/
theorem C7_load_fails_soft_witness :
    ((fun (_ : String) => (none : Option StoredFile)) "data/g.npz" = none ∨
      (fun (_ : String) => (none : Option StoredFile)) "data/g.npz"
        = some StoredFile.corrupt) ∧
    load_file_as_list "data/g.npz" (fun _ => none) = [] :=
  ⟨Or.inl rfl, C7_load_fails_soft (fun _ => none) "data/g.npz" (Or.inl rfl)⟩
